import Mathlib

/-!
Verification of the TouristGen route-optimization core against its
natural-language specification.  The Python sources under
`backend/app/services` and `backend/app/api` are shallowly embedded below:
pure functions become Lean functions over `ℚ` (exact rational arithmetic
stands in for Python's float arithmetic), Python dicts become association
lists, and the one fallible loop (`_create_ox_child`) returns `Option`
(`none` marks the input on which the Python loop never terminates).
Transcendental geodesic/haversine subcomputations are abstracted as oracle
fields of the solver state, instantiated concretely in each scenario.
-/

namespace TouristGen

/-! ## Small helpers shared by several modules -/

/-- Truncation toward zero, Python's `int(float)`. -/
def ratTrunc (q : ℚ) : ℤ :=
  if 0 ≤ q then ⌊q⌋ else -⌊-q⌋

/-- Two-digit zero padding used by `_minutes_to_time_string`. -/
def pad2 (n : ℕ) : String :=
  if n < 10 then "0" ++ toString n else toString n

/-- Python's `str.lower` restricted to the ASCII range (character-wise),
matching how the source lowercases opening-hours strings before
substring checks. -/
def lowerL (cs : List Char) : List Char := cs.map Char.toLower

/-- Whether `needle` occurs as a contiguous run inside `hay` (Python's
`in` on strings, character-wise). -/
def strContains (hay needle : List Char) : Bool :=
  hay.tails.any (fun t => needle.isPrefixOf t)

/-- Python's `str.split(sep)` for a one-character separator. -/
def splitOnChar (sep : Char) : List Char → List (List Char)
  | [] => [[]]
  | c :: rest =>
    if c = sep then [] :: splitOnChar sep rest
    else
      match splitOnChar sep rest with
      | [] => [[c]]
      | grp :: rest2 => (c :: grp) :: rest2

/-- Python's `str.strip()`: whitespace removed from both ends. -/
def trimL (cs : List Char) : List Char :=
  ((cs.dropWhile Char.isWhitespace).reverse.dropWhile Char.isWhitespace).reverse

/-- Python's `int(str)`: optional surrounding whitespace, optional sign,
then at least one digit.  `none` models a raised `ValueError`. -/
def pyInt (cs0 : List Char) : Option ℤ :=
  let cs := trimL cs0
  let (sign, digits) :=
    match cs with
    | '-' :: rest => ((-1 : ℤ), rest)
    | '+' :: rest => ((1 : ℤ), rest)
    | rest => ((1 : ℤ), rest)
  if digits = [] ∨ ¬ digits.all Char.isDigit then none
  else some (sign * (digits.foldl (fun acc c => acc * 10 + (c.toNat - 48)) 0 : ℕ))

/-! ## `hours_utils.py` -/

/-- An `opening_hours` mapping: weekday label to possibly-null string.
Python dicts iterate in insertion order, matched by the list order. -/
abbrev HoursDict := List (String × Option String)

/-- Dict lookup `hours_dict.get(day)`: `none` when the key is absent. -/
def hoursGet (hd : HoursDict) (day : String) : Option (Option String) :=
  (hd.find? (fun p => p.1 = day)).map Prod.snd

/-- One digit character to its value. -/
def dval (c : Char) : ℕ := c.toNat - 48

/-- Match `\d{1,2}:(\d{2})` at the head of `cs`, greedy on the hour part
(two digits tried before one, as the regex engine backtracks).  Returns
the minute-of-day value and the rest of the input. -/
def matchClock (cs : List Char) : Option (ℕ × List Char) :=
  match cs with
  | a :: b :: ':' :: c :: d :: rest =>
    if a.isDigit ∧ b.isDigit ∧ c.isDigit ∧ d.isDigit then
      some ((dval a * 10 + dval b) * 60 + (dval c * 10 + dval d), rest)
    else
      match cs with
      | a :: ':' :: c :: d :: rest2 =>
        if a.isDigit ∧ c.isDigit ∧ d.isDigit then
          some (dval a * 60 + (dval c * 10 + dval d), rest2)
        else none
      | _ => none
  | a :: ':' :: c :: d :: rest2 =>
    if a.isDigit ∧ c.isDigit ∧ d.isDigit then
      some (dval a * 60 + (dval c * 10 + dval d), rest2)
    else none
  | _ => none

/-- Match the whole pattern `(\d{1,2}):(\d{2})\s*[–\-]\s*(\d{1,2}):(\d{2})`
at the head of `cs`. -/
def matchRange (cs : List Char) : Option (ℕ × ℕ) := do
  let (o, rest) ← matchClock cs
  let rest := rest.dropWhile Char.isWhitespace
  match rest with
  | d :: rest2 =>
    if d = '-' ∨ d = '–' then
      let rest3 := rest2.dropWhile Char.isWhitespace
      let (c, _) ← matchClock rest3
      pure (o, c)
    else none
  | [] => none

/-- `re.search` of the time-range pattern: leftmost position at which the
pattern matches. -/
def searchRange : List Char → Option (ℕ × ℕ)
  | [] => none
  | c :: rest =>
    match matchRange (c :: rest) with
    | some r => some r
    | none => searchRange rest

/-- Embedding of `parse_opening_hours` (hours_utils.py lines 6-34).
`none` is the Closed outcome (Python's `(None, None)`); `some (o, c)` a
window in minutes, with 1440 added to `c` when the range crosses
midnight; absent/null/unparseable entries and 24-hour markers give
`some (0, 1440)`. -/
def parse_opening_hours (hd : HoursDict) (day : String) : Option (ℕ × ℕ) :=
  if hd = [] then some (0, 1440)
  else
    match hoursGet hd day with
    | none => some (0, 1440)
    | some none => some (0, 1440)
    | some (some s) =>
      let low := lowerL s.toList
      if strContains low "24 horas".toList ∨ strContains low "24 hours".toList then
        some (0, 1440)
      else if strContains low "cerrado".toList ∨ strContains low "closed".toList then
        none
      else
        match searchRange s.toList with
        | some (o, c) => if c < o then some (o, c + 1440) else some (o, c)
        | none => some (0, 1440)

/-- Embedding of `is_poi_available` (hours_utils.py lines 35-54). -/
def is_poi_available (hd : HoursDict) (day : String) (start_time_minutes : ℤ)
    (visit_duration : ℤ) : Bool :=
  match parse_opening_hours hd day with
  | none => false
  | some (_, c) => start_time_minutes ≤ (c : ℤ) - visit_duration

/-- Embedding of `calculate_urgency_weight` (hours_utils.py lines 55-89).
Note the source returns 1.0 whenever the parsed closing minute is ≥ 1440,
which covers 24-hour windows but also bounded windows that cross
midnight. -/
def calculate_urgency_weight (hd : HoursDict) (day : String)
    (current_time_minutes : ℚ) (visit_duration : ℚ) : ℚ :=
  match parse_opening_hours hd day with
  | none => 1
  | some (_, c) =>
    if 1440 ≤ c then 1
    else
      let time_until_close : ℚ := (c : ℚ) - current_time_minutes
      if time_until_close ≤ visit_duration then 0
      else
        let available_window := time_until_close - visit_duration
        if available_window ≤ 30 then 2
        else if 180 ≤ available_window then 1
        else max 1 (min 2 (2 - (available_window - 30) / 150))

/-! ## `optimization_weights.py` -/

/-- Embedding of the `OptimizationWeights` dataclass with its default
values (optimization_weights.py). -/
structure OptimizationWeights where
  distance_weight : ℚ := 35/100
  popularity_weight : ℚ := 3/10
  urgency_weight : ℚ := 1/5
  rating_weight : ℚ := 3/20
  travel_time_penalty : ℚ := 1/10
  cost_penalty : ℚ := 1/2
  constraint_violation : ℚ := 2
  wait_time_penalty : ℚ := 1/2
  missed_poi_penalty : ℚ := 200
  insufficient_time_penalty : ℚ := 150
  avoided_category_penalty : ℚ := 50
  mandatory_missing_penalty : ℚ := 100
  non_visitable_penalty : ℚ := 300

/-- The module-level singleton `WEIGHTS`. -/
def WEIGHTS : OptimizationWeights := {}

/-! ## `toptw_solver.py`: data model -/

/-- Embedding of the `POINode` dataclass.  The presentation-only `phone`
field is omitted; `price_level` is not a field of the dataclass (the
`hasattr` test in `get_route_details` is therefore always false). -/
structure POINode where
  id : ℕ
  name : String := ""
  latitude : ℚ := 0
  longitude : ℚ := 0
  popularity : ℚ := 0
  opening_time : ℚ := 0
  closing_time : ℚ := 1440
  visit_duration : ℚ := 60
  category : String := ""
  price : ℚ := 0
  rating : ℚ := 0
  tags : List String := []
  district : String := ""
  learned_weight : ℚ := 1
  opening_hours : HoursDict := []
deriving DecidableEq

instance : Inhabited POINode := ⟨{ id := 0 }⟩

/-- Weather dict consumed by `_calculate_weather_weight`; each field is
`none` when the key is absent (Python `dict.get` default applies). -/
structure WeatherData where
  precipitation : Option ℚ := none
  temperature : Option ℚ := none
  wind_speed : Option ℚ := none
deriving DecidableEq

/-- Embedding of the `TOPTWConstraints` dataclass. -/
structure TOPTWConstraints where
  max_duration : ℚ
  max_budget : ℚ
  start_time : ℚ
  user_pace : String := "medium"
  mandatory_categories : List String := []
  avoid_categories : List String := []
  preferred_districts : List String := []
  weather_conditions : Option WeatherData := none
  transport_mode : String := "driving-car"
  day_of_week : String := "Monday"
deriving DecidableEq

/-- The profile→speed table shared by `_estimate_travel_time`,
`get_route_details` and the geodesic fallback (`speeds.get(mode, 25.0)`). -/
def transportSpeed (mode : String) : ℚ :=
  if mode = "foot-walking" then 9/2
  else if mode = "cycling-regular" then 15
  else if mode = "driving-car" then 25
  else 25

/-- Solver state (`TOPTWSolver.__init__` plus the two setters).  The
transcendental haversine/geodesic computations of the source are
abstracted as the oracle fields `est` (travel minutes between two POIs,
`_estimate_travel_time`) and `geoKm` (geodesic kilometres between two
coordinate pairs, `geopy.distance.geodesic`). -/
structure TOPTWSolver where
  pois : List POINode
  constraints : TOPTWConstraints
  time_matrix : Option (List (List ℚ)) := none
  start_to_poi_times : Option (List ℚ) := none
  est : POINode → POINode → ℚ := fun _ _ => 0
  geoKm : ℚ × ℚ → ℚ × ℚ → ℚ := fun _ _ => 0

/-- Embedding of `_calculate_weather_weight` (toptw_solver.py 215-246). -/
def weatherWeight (slv : TOPTWSolver) (poi : POINode) : ℚ :=
  match slv.constraints.weather_conditions with
  | none => 1
  | some w =>
    let w1 : ℚ :=
      if 2 < w.precipitation.getD 0 then
        if ["outdoor", "park", "beach"].any (fun t => t ∈ poi.tags) then 1/2
        else if ["museum", "indoor", "cultural"].any (fun t => t ∈ poi.tags) then 13/10
        else 1
      else 1
    let temp := w.temperature.getD 20
    let w2 : ℚ :=
      if 30 < temp then
        if "outdoor" ∈ poi.tags then 7/10
        else if "indoor" ∈ poi.tags then 12/10
        else 1
      else if temp < 15 then
        if "beach" ∈ poi.tags then 6/10 else 1
      else 1
    let w3 : ℚ :=
      if 30 < w.wind_speed.getD 0 then
        if "beach" ∈ poi.tags ∨ "outdoor" ∈ poi.tags then 8/10 else 1
      else 1
    w1 * w2 * w3

/-- Embedding of `_calculate_user_preference_weight` (toptw_solver.py
248-266). -/
def userWeight (slv : TOPTWSolver) (poi : POINode) : ℚ :=
  let w1 : ℚ := if poi.category ∈ slv.constraints.mandatory_categories then 3/2 else 1
  let w2 : ℚ := if poi.category ∈ slv.constraints.avoid_categories then 1/5 else 1
  let w3 : ℚ :=
    if slv.constraints.preferred_districts ≠ [] then
      if poi.district ∈ slv.constraints.preferred_districts then 13/10 else 4/5
    else 1
  w1 * w2 * w3

/-- Embedding of `_get_pace_multiplier` (toptw_solver.py 268-275). -/
def paceMultiplier (pace : String) : ℚ :=
  if pace = "slow" then 13/10
  else if pace = "medium" then 1
  else if pace = "fast" then 4/5
  else 1

/-- Travel time lookup used inside `calculate_fitness` (lines 113-121):
the matrix is consulted only when present and `prev_idx < len(matrix)`,
otherwise the haversine estimate. -/
def travelCost (slv : TOPTWSolver) (prev idx : ℕ) : ℚ :=
  match slv.time_matrix with
  | some M =>
    if prev < M.length then (M.getD prev []).getD idx 0
    else slv.est (slv.pois.getD prev default) (slv.pois.getD idx default)
  | none => slv.est (slv.pois.getD prev default) (slv.pois.getD idx default)

/-- Travel time lookup used in `validate_route` and `get_route_details`
(no bound guard on the row index, lines 387-390 / 438-442). -/
def travelNoGuard (slv : TOPTWSolver) (prev idx : ℕ) : ℚ :=
  match slv.time_matrix with
  | some M => (M.getD prev []).getD idx 0
  | none => slv.est (slv.pois.getD prev default) (slv.pois.getD idx default)

/-! ## `toptw_solver.py`: `calculate_fitness` -/

/-- Accumulator of the fitness loop (toptw_solver.py 95-102), plus the
ghost field `visited` recording the indices that reach the scoring line
(the POIs the walk actually visits and scores). -/
structure FitState where
  total_score : ℚ := 0
  total_time : ℚ := 0
  total_cost : ℚ := 0
  current_time : ℚ
  penalties : ℚ := 0
  visited_categories : List String := []
  visited : List ℕ := []

/-- The tail of one loop iteration after the wait handling: closing-time
checks, the visit itself, urgency gate, and scoring (lines 145-186). -/
def fitnessVisit (slv : TOPTWSolver) (st : FitState) (poi : POINode) (poi_idx : ℕ) :
    FitState :=
  if poi.closing_time ≤ st.current_time then
    { st with penalties := st.penalties + 200 }
  else if poi.closing_time < st.current_time + poi.visit_duration then
    { st with penalties := st.penalties + 150 }
  else
    let st := { st with total_time := st.total_time + poi.visit_duration,
                        current_time := st.current_time + poi.visit_duration,
                        total_cost := st.total_cost + poi.price }
    let urg := calculate_urgency_weight poi.opening_hours slv.constraints.day_of_week
                 st.current_time poi.visit_duration
    if urg = 0 then { st with penalties := st.penalties + 300 }
    else
      { st with
        total_score := st.total_score +
          poi.popularity * weatherWeight slv poi * userWeight slv poi *
            poi.learned_weight * urg * (poi.rating / 5),
        visited := st.visited ++ [poi_idx] }

/-- One iteration of the fitness loop (lines 104-186); `prev` is the
preceding route element when `i > 0`. -/
def fitnessStep (slv : TOPTWSolver) (prev : Option ℕ) (st : FitState) (poi_idx : ℕ) :
    FitState :=
  let poi := slv.pois.getD poi_idx default
  if slv.pois.length ≤ poi_idx then { st with penalties := st.penalties + 1000 }
  else
    let st := { st with visited_categories := poi.category :: st.visited_categories }
    let st :=
      match prev with
      | none => st
      | some p =>
        let t := travelCost slv p poi_idx
        { st with total_time := st.total_time + t, current_time := st.current_time + t }
    if poi.category ∈ slv.constraints.avoid_categories then
      { st with penalties := st.penalties + 50 }
    else if st.current_time < poi.opening_time then
      let wait := poi.opening_time - st.current_time
      if 30 < wait then { st with penalties := st.penalties + 500 }
      else
        fitnessVisit slv
          { st with penalties := st.penalties + wait * 2,
                    current_time := poi.opening_time,
                    total_time := st.total_time + wait } poi poi_idx
    else fitnessVisit slv st poi poi_idx

/-- The fitness loop over the whole route, threading the previous route
element. -/
def fitnessLoop (slv : TOPTWSolver) : Option ℕ → FitState → List ℕ → FitState
  | _, st, [] => st
  | prev, st, idx :: rest =>
    fitnessLoop slv (some idx) (fitnessStep slv prev st idx) rest

/-- The loop state after walking `route` from `start_time`. -/
def fitnessWalk (slv : TOPTWSolver) (route : List ℕ) : FitState :=
  fitnessLoop slv none { current_time := slv.constraints.start_time } route

/-- The post-loop penalty accumulation (lines 188-208): mandatory
categories, duration overrun, budget overrun, pace-adjusted overrun. -/
def finalPenalties (slv : TOPTWSolver) (st : FitState) : ℚ :=
  let p1 := st.penalties +
    100 * ((slv.constraints.mandatory_categories.filter
      (fun c => c ∉ st.visited_categories)).length : ℚ)
  let p2 := if slv.constraints.max_duration < st.total_time then
      p1 + (st.total_time - slv.constraints.max_duration) * WEIGHTS.constraint_violation
    else p1
  let p3 := if slv.constraints.max_budget < st.total_cost then
      p2 + (st.total_cost - slv.constraints.max_budget) * WEIGHTS.cost_penalty * 10
    else p2
  let adjusted := st.total_time * paceMultiplier slv.constraints.user_pace
  if slv.constraints.max_duration < adjusted then
    p3 + (adjusted - slv.constraints.max_duration) * WEIGHTS.constraint_violation
  else p3

/-- Final fitness of a walked state (lines 210-213). -/
def fitnessFinal (slv : TOPTWSolver) (st : FitState) : ℚ :=
  max 0 (st.total_score - WEIGHTS.travel_time_penalty * st.total_time
         - WEIGHTS.cost_penalty * st.total_cost - finalPenalties slv st)

/-- Embedding of `TOPTWSolver.calculate_fitness` (toptw_solver.py 85-213). -/
def calculate_fitness (slv : TOPTWSolver) (route : List ℕ) : ℚ :=
  if route = [] then 0
  else fitnessFinal slv (fitnessWalk slv route)

/-- The ghost list of indices visited and scored by the fitness walk. -/
def fitnessVisited (slv : TOPTWSolver) (route : List ℕ) : List ℕ :=
  (fitnessWalk slv route).visited

/-- Modelled from the spec (§4.3 step 1): a fitness variant that, for
`i = 0`, adds `start_to_each[idx]` when available (otherwise the supplied
haversine-derived fallback `startFallback`) into `current_time` and
`total_time` before evaluating the first POI, exactly as the claim says
the evaluator behaves.  Used only to compare against
`calculate_fitness`. -/
def calculate_fitness_specC1 (slv : TOPTWSolver) (startFallback : ℚ)
    (route : List ℕ) : ℚ :=
  match route with
  | [] => 0
  | idx :: rest =>
    let t : ℚ :=
      match slv.start_to_poi_times with
      | some ts => if idx < ts.length then ts.getD idx 0 else startFallback
      | none => startFallback
    let st0 : FitState := { current_time := slv.constraints.start_time + t,
                            total_time := t }
    fitnessFinal slv (fitnessLoop slv (some idx) (fitnessStep slv none st0 idx) rest)

/-! ## `toptw_solver.py`: `get_route_details` -/

/-- Embedding of `_minutes_to_time_string` (toptw_solver.py 497-501). -/
def minutes_to_time_string (m : ℚ) : String :=
  let h : ℤ := ⌊m / 60⌋
  let mins : ℤ := ratTrunc (m - 60 * (⌊m / 60⌋ : ℚ))
  pad2 h.toNat ++ ":" ++ pad2 mins.toNat

/-- One timeline entry (toptw_solver.py 466-483); presentation-only
string fields that no claim inspects are omitted. -/
structure TLEntry where
  poi_id : ℕ
  arrival_time : String
  departure_time : String
  visit_duration : ℚ
  travel_time : ℤ
  wait_time : ℤ
  price : ℚ
  is_free : Bool
deriving DecidableEq

/-- The smart visit duration of one POI (toptw_solver.py 399-407):
popularity-proportional share of the visit budget, truncated to an int
and clamped to [30, 180]; the original duration when total importance is
zero. -/
def smartDuration (slv : TOPTWSolver) (visit_budget total_importance : ℚ)
    (idx : ℕ) : ℚ :=
  let poi := slv.pois.getD idx default
  if 0 < total_importance then
    max 30 (min 180 ((ratTrunc (poi.popularity / total_importance * visit_budget) : ℚ)))
  else poi.visit_duration

/-- Consecutive pairs of a route. -/
def legs : List ℕ → List (ℕ × ℕ)
  | a :: b :: rest => (a, b) :: legs (b :: rest)
  | _ => []

/-- Total travel time computed up front by `get_route_details` (lines
367-390): geodesic start leg when a start location is given, plus the
matrix legs. -/
def totalTravel (slv : TOPTWSolver) (route : List ℕ)
    (start_location : Option (ℚ × ℚ)) : ℚ :=
  let startPart : ℚ :=
    match start_location, route with
    | some loc, idx :: _ =>
      let poi := slv.pois.getD idx default
      slv.geoKm loc (poi.latitude, poi.longitude)
        / transportSpeed slv.constraints.transport_mode * 60
    | _, _ => 0
  startPart + (legs route).foldl (fun acc p => acc + travelNoGuard slv p.1 p.2) 0

/-- Accumulator of the timeline loop (lines 409-486), with the ghost
field `skipped` recording each omitted POI together with the wait that
caused the omission. -/
structure SchedState where
  current_time : ℚ
  total_cost : ℚ := 0
  timeline : List TLEntry := []
  skipped : List (ℕ × ℚ) := []

/-- The travel time added at the start of one timeline iteration (lines
417-444): start-to-first-POI time (ORS vector or geodesic fallback) when
`i == 0` and a start location is given, matrix/estimate time when
`i > 0`, zero otherwise. -/
def schedTravel (slv : TOPTWSolver) (start_location : Option (ℚ × ℚ))
    (isFirst : Bool) (prev : Option ℕ) (idx : ℕ) : ℚ :=
  let poi := slv.pois.getD idx default
  if isFirst then
    match start_location with
    | some loc =>
      let geoFallback := slv.geoKm loc (poi.latitude, poi.longitude)
        / transportSpeed slv.constraints.transport_mode * 60
      match slv.start_to_poi_times with
      | some ts => if idx < ts.length then ts.getD idx 0 else geoFallback
      | none => geoFallback
    | none => 0
  else
    match prev with
    | some p => travelNoGuard slv p idx
    | none => 0

/-- One iteration of the timeline loop (lines 414-486).  `isFirst` is
`i == 0`; `prev` the preceding route element.  The only condition that
suppresses an entry is a wait above `MAX_WAIT_TIME` (line 453). -/
def schedStep (slv : TOPTWSolver) (durOf : ℕ → ℚ)
    (start_location : Option (ℚ × ℚ)) (isFirst : Bool) (prev : Option ℕ)
    (st : SchedState) (idx : ℕ) : SchedState :=
  let poi := slv.pois.getD idx default
  let travel := schedTravel slv start_location isFirst prev idx
  let ct := st.current_time + travel
  let arrival := ct
  if ct < poi.opening_time ∧ 30 < poi.opening_time - ct then
    { st with current_time := ct, skipped := st.skipped ++ [(idx, poi.opening_time - ct)] }
  else
    let wait : ℚ := if ct < poi.opening_time then poi.opening_time - ct else 0
    let ct2 : ℚ := if ct < poi.opening_time then poi.opening_time else ct
    let smart := durOf idx
    let departure := ct2 + smart
    let entry : TLEntry :=
      { poi_id := poi.id
        arrival_time := minutes_to_time_string arrival
        departure_time := minutes_to_time_string departure
        visit_duration := smart
        travel_time := ratTrunc travel
        wait_time := if 0 < wait then ratTrunc wait else 0
        price := poi.price
        is_free := poi.price = 0 }
    { st with current_time := departure,
              total_cost := st.total_cost + poi.price,
              timeline := st.timeline ++ [entry] }

/-- The timeline loop over the whole route. -/
def schedLoop (slv : TOPTWSolver) (durOf : ℕ → ℚ)
    (start_location : Option (ℚ × ℚ)) :
    Bool → Option ℕ → SchedState → List ℕ → SchedState
  | _, _, st, [] => st
  | isFirst, prev, st, idx :: rest =>
    schedLoop slv durOf start_location false (some idx)
      (schedStep slv durOf start_location isFirst prev st idx) rest

/-- The timeline walk of a route starting from `start_time`. -/
def schedWalk (slv : TOPTWSolver) (route : List ℕ)
    (start_location : Option (ℚ × ℚ)) : SchedState :=
  let tt := totalTravel slv route start_location
  let budget := slv.constraints.max_duration - tt
  let imp := (route.map (fun i => (slv.pois.getD i default).popularity)).sum
  schedLoop slv (smartDuration slv budget imp) start_location true none
    { current_time := slv.constraints.start_time } route

/-- The dictionary returned by `get_route_details` (lines 488-495). -/
structure RouteDetails where
  timeline : List TLEntry
  total_duration : ℚ
  total_cost : ℚ
  num_pois : ℕ
  start_time : String
  end_time : String
deriving DecidableEq

/-- Embedding of `TOPTWSolver.get_route_details` (toptw_solver.py
353-495); `none` is the empty dict returned for an empty route. -/
def get_route_details (slv : TOPTWSolver) (route : List ℕ)
    (start_location : Option (ℚ × ℚ)) : Option RouteDetails :=
  if route = [] then none
  else
    let st := schedWalk slv route start_location
    some { timeline := st.timeline
           total_duration := st.current_time - slv.constraints.start_time
           total_cost := st.total_cost
           num_pois := route.length
           start_time := minutes_to_time_string slv.constraints.start_time
           end_time := minutes_to_time_string st.current_time }

/-- The timeline of a route-details result, `[]` for the empty dict. -/
def detailsTimeline (o : Option RouteDetails) : List TLEntry :=
  (o.map (fun d => d.timeline)).getD []

/-! ## `aco_optimizer.py`: pheromone matrix -/

/-- The pheromone matrix modelled as a total function on indices (the
`n × n` numpy array; all claims access it within bounds). -/
abbrev Phero := ℕ → ℕ → ℚ

/-- `np.ones((n, n)) * 0.1` (aco_optimizer.py line 47). -/
def initPheromone : Phero := fun _ _ => 1/10

/-- Point update of one cell. -/
def pherSet (τ : Phero) (u v : ℕ) (x : ℚ) : Phero :=
  fun i j => if i = u ∧ j = v then x else τ i j

/-- The two `+=` statements of the symmetric deposit (lines 317-318),
performed sequentially so that `u = v` deposits twice into the diagonal
cell, as in the source. -/
def depositPair (τ : Phero) (u v : ℕ) (d : ℚ) : Phero :=
  let τ1 := pherSet τ u v (τ u v + d)
  pherSet τ1 v u (τ1 v u + d)

/-- Deposit along every consecutive pair of a route (lines 315-318). -/
def depositRoute (d : ℚ) : Phero → List ℕ → Phero
  | τ, a :: b :: rest => depositRoute d (depositPair τ a b d) (b :: rest)
  | τ, _ => τ

/-- Embedding of `_update_pheromones` (aco_optimizer.py 303-318):
evaporation by `1 - ρ`, then for each solution with positive fitness a
symmetric deposit of `q · fitness` along the route. -/
def update_pheromones (ρ q : ℚ) (τ : Phero)
    (solutions : List (List ℕ × ℚ)) : Phero :=
  solutions.foldl
    (fun acc s => if s.2 ≤ 0 then acc else depositRoute (q * s.2) acc s.1)
    (fun i j => (1 - ρ) * τ i j)

/-- Non-negativity of a pheromone matrix. -/
def PherNonneg (τ : Phero) : Prop := ∀ i j, 0 ≤ τ i j

/-- Symmetry of a pheromone matrix. -/
def PherSymm (τ : Phero) : Prop := ∀ i j, τ i j = τ j i

/-! ## `ga_optimizer.py`: ordered crossover -/

/-- Scan for a `-1` slot starting at `idx`, wrapping at the list length,
probing at most `fuel` positions.  This is the `while child[child_idx]
!= -1` loop of `_create_ox_child` (lines 195-198): when a full cycle
finds no free slot the Python loop never terminates, which the embedding
reports as `none`. -/
def findFree (child : List ℤ) (idx : ℕ) : ℕ → Option ℕ
  | 0 => none
  | fuel + 1 =>
    let i := if child.length ≤ idx then 0 else idx
    if child.getD i 0 = -1 then some i else findFree child (i + 1) fuel

/-- The fill loop of `_create_ox_child` (lines 190-200): place each gene
into the next free slot scanning from `idx` with wraparound.  `none`
models the non-terminating Python loop. -/
def oxFill (child : List ℤ) (idx : ℕ) : List ℤ → Option (List ℤ)
  | [] => some child
  | g :: gs =>
    match findFree child idx child.length with
    | none => none
    | some j => oxFill (child.set j g) j gs

/-- The `-1`-initialised child with `parent1[start:stop]` copied in
(`child = [-1]*size; child[start:end] = parent1[start:end]`,
ga_optimizer.py 181-184). -/
def oxChildInit (parent1 : List ℤ) (start stop : ℕ) : List ℤ :=
  (List.range parent1.length).map
    (fun i => if start ≤ i ∧ i < stop then parent1.getD i (-1) else -1)

/-- Embedding of `_create_ox_child` (ga_optimizer.py 177-202): copy
`parent1[start:stop]` into a `-1`-initialised child, filter `parent2` to
the genes not already present, and fill the remaining positions starting
at `stop` with wraparound. -/
def create_ox_child (parent1 parent2 : List ℤ) (start stop : ℕ) :
    Option (List ℤ) :=
  let child := oxChildInit parent1 start stop
  let filtered := parent2.filter (fun g => g ∉ child)
  oxFill child stop filtered

/-- The cyclic probe order of the fill loop: positions `idx, idx+1, …`
wrapping at `L` (one full cycle). -/
def scanOrder (L idx : ℕ) : List ℕ :=
  (List.range L).drop idx ++ (List.range L).take idx

/-- The positions left free by the segment copy, in the order the fill
loop reaches them from `stop`: `stop, …, L-1` then `0, …, start-1`. -/
def freeSlots (L start stop : ℕ) : List ℕ :=
  (List.range L).drop stop ++ (List.range L).take start

/-- Embedding of `ordered_crossover` (ga_optimizer.py 157-175) with the
two sampled cut points passed explicitly. -/
def ordered_crossover (parent1 parent2 : List ℤ) (cx1 cx2 : ℕ) :
    Option (List ℤ × List ℤ) :=
  if parent1.length < 2 ∨ parent2.length < 2 then some (parent1, parent2)
  else
    let size := min parent1.length parent2.length
    let p1 := parent1.take size
    let p2 := parent2.take size
    match create_ox_child p1 p2 cx1 cx2, create_ox_child p2 p1 cx1 cx2 with
    | some c1, some c2 => some (c1, c2)
    | _, _ => none

/-! ## `routes_service.py`: distance-matrix cache -/

/-- A coordinate list paired with a profile: the cache key
(`(tuple(coordinates), profile)`, line 50). -/
abbrev MatrixKey := List (ℚ × ℚ) × String

/-- The in-memory cache `_matrix_cache`, newest entry first. -/
abbrev MatrixCache := List (MatrixKey × List (List ℚ))

/-- The three travel-time providers of `get_distance_matrix`, abstracted:
`ors` is consulted only when an API key is configured and may fail,
`osrm` may fail, and the geodesic computation is total. -/
structure Providers where
  use_api : Bool
  ors : List (ℚ × ℚ) → String → Option (List (List ℚ))
  osrm : List (ℚ × ℚ) → String → Option (List (List ℚ))
  geodesic : List (ℚ × ℚ) → String → List (List ℚ)

/-- Embedding of `RoutesService.get_distance_matrix` (routes_service.py
33-91).  Returns the matrix, the updated cache, and whether any provider
(or the geodesic fallback) was invoked; a cache hit returns the stored
matrix with no provider work. -/
def get_distance_matrix (P : Providers) (cache : MatrixCache)
    (coordinates : List (ℚ × ℚ)) (profile : String) :
    List (List ℚ) × MatrixCache × Bool :=
  let key : MatrixKey := (coordinates, profile)
  match cache.find? (fun e => e.1 = key) with
  | some e => (e.2, cache, false)
  | none =>
    let viaOrs := if P.use_api then P.ors coordinates profile else none
    match viaOrs with
    | some m => (m, (key, m) :: cache, true)
    | none =>
      match P.osrm coordinates profile with
      | some m => (m, (key, m) :: cache, true)
      | none =>
        let m := P.geodesic coordinates profile
        (m, (key, m) :: cache, true)

/-! ## `api/optimizer.py`: orchestrator fragments -/

/-- Embedding of `_time_str_to_minutes` (optimizer.py 543-549): split on
`:`, parse both parts as ints, default 540 on any failure. -/
def time_str_to_minutes (cs : List Char) : ℤ :=
  match splitOnChar ':' cs with
  | [h, m] =>
    match pyInt h, pyInt m with
    | some hv, some mv => hv * 60 + mv
    | _, _ => 540
  | _ => 540

/-- One iteration of the POINode window derivation in `generate_route`
(optimizer.py 227-237): a dict value yields a window when it contains a
hyphen and splits on it into exactly two parts (each part parsed with
`_time_str_to_minutes`); `none` otherwise.  The requested day plays no
part. -/
def entryWindow : Option String → Option (ℤ × ℤ)
  | none => none
  | some h =>
    if strContains h.toList ['-'] then
      match splitOnChar '-' h.toList with
      | [o, c] => some (time_str_to_minutes (trimL o), time_str_to_minutes (trimL c))
      | _ => none
    else none

/-- The loop of optimizer.py 227-237: first entry that yields a window,
default (540, 1080). -/
def derive_poi_window : HoursDict → ℤ × ℤ
  | [] => (540, 1080)
  | (_, v) :: rest =>
    match entryWindow v with
    | some w => w
    | none => derive_poi_window rest

/-- The first parsable window of a mapping, phrased with `findSome?`:
the specification-style reading of the same derivation. -/
def firstHyphenWindow (hd : HoursDict) : Option (ℤ × ℤ) :=
  hd.findSome? (fun p => entryWindow p.2)

/-- The names bound at module scope in `api/optimizer.py` (imports,
module-level defs and classes, lines 1-57 and later defs).  Python
resolves a bare name inside `generate_route` against this scope. -/
def optimizerModuleNames : List String :=
  ["APIRouter", "Depends", "HTTPException", "BackgroundTasks", "Session",
   "List", "Optional", "Dict", "BaseModel", "Field", "datetime", "np",
   "logging", "get_db", "POIService", "WeatherService", "RoutesService",
   "AntColonyOptimizer", "POINode", "TOPTWConstraints",
   "LimaPlacesExtractor", "settings", "is_poi_available",
   "calculate_urgency_weight", "router", "logger",
   "convert_price_level_to_cost", "OptimizationRequest", "TimelineItem",
   "OptimizationResponse", "FeedbackRequest", "generate_route",
   "reoptimize_route", "submit_feedback", "update_learned_weights",
   "_time_str_to_minutes"]

/-- The parameters accepted by `GeneticAlgorithm.__init__`
(ga_optimizer.py 21-31). -/
def gaInitParams : List String :=
  ["pois", "constraints", "population_size", "generations",
   "mutation_rate", "crossover_rate", "elite_ratio", "tournament_size"]

/-- The keyword arguments of the `GeneticAlgorithm(...)` call in the GA
fallback branch of `generate_route` (optimizer.py 350-356). -/
def gaFallbackKwargs : List String :=
  ["pois", "constraints", "population_size", "generations",
   "start_location"]

/-- Python runtime errors relevant to the fallback branch. -/
inductive PyError where
  | nameError (name : String)
  | typeError (kwarg : String)
deriving DecidableEq

/-- Evaluation of the GA fallback call as the Python runtime performs
it: resolve the bare name `GeneticAlgorithm` in the module scope, then
check every keyword argument against the constructor's parameters. -/
def gaFallbackCall : Except PyError Unit :=
  if "GeneticAlgorithm" ∈ optimizerModuleNames then
    match gaFallbackKwargs.find? (fun k => k ∉ gaInitParams) with
    | some k => .error (.typeError k)
    | none => .ok ()
  else .error (.nameError "GeneticAlgorithm")

/-- The tail of `generate_route` after ACO (optimizer.py 347-365): when
the ACO best route is empty the GA fallback branch runs (its constructor
call evaluated by `gaFallbackCall`); an `Except.error` models the
exception that the endpoint turns into an HTTP 500. -/
def generate_route_after_aco (acoBest : List ℕ) :
    Except PyError (List ℕ) :=
  if acoBest = [] then
    match gaFallbackCall with
    | .error e => .error e
    | .ok _ => .ok acoBest
  else .ok acoBest

/-! ## Concrete scenario instances used by the claim theorems -/

/-- The always-open POI of scenario S1: visit 60 min, popularity 80,
rating 4.0, price 0, at (−12.12, −77.03). -/
def poiA : POINode where
  id := 1
  latitude := -1212/100
  longitude := -7703/100
  popularity := 80
  opening_time := 0
  closing_time := 1440
  visit_duration := 60
  category := "museum"
  rating := 4

/-- The S1 constraints: max_duration 120, max_budget 10, start 09:00,
Monday, walking. -/
def consS1 : TOPTWConstraints where
  max_duration := 120
  max_budget := 10
  start_time := 540
  transport_mode := "foot-walking"

/-- The S1 solver: one POI, 1×1 zero matrix, zero start-to-POI time
(the start location coincides with the POI, so the geodesic distance and
the ORS travel time are 0). -/
def solverS1 : TOPTWSolver where
  pois := [poiA]
  constraints := consS1
  time_matrix := some [[0]]
  start_to_poi_times := some [0]

/-- A variant of the S1 constraints with a loose duration bound, used
where the duration penalty would obscure the property at issue. -/
def consLoose : TOPTWConstraints where
  max_duration := 720
  max_budget := 10
  start_time := 540
  transport_mode := "foot-walking"

/-- Solver for the C1 counterexample: same POI, but a nonzero
start-to-first-POI travel-time vector (100 minutes). -/
def solverC1 : TOPTWSolver where
  pois := [poiA]
  constraints := consLoose
  time_matrix := some [[0]]
  start_to_poi_times := some [100]

/-- A POI that already closed (closing 500) before the 09:00 start. -/
def poiLate : POINode where
  id := 7
  popularity := 80
  opening_time := 0
  closing_time := 500
  visit_duration := 60
  rating := 4

/-- Solver for the C2 counterexample: one POI whose closing time
precedes the arrival time. -/
def solverC2 : TOPTWSolver where
  pois := [poiLate]
  constraints := consLoose
  time_matrix := some [[0]]

/-- The successive probe positions of the fill loop's free-slot scan:
an unrolling of `findFree` used to reason about its wraparound order. -/
def probeList (L idx : ℕ) : ℕ → List ℕ
  | 0 => []
  | fuel + 1 =>
    (if L ≤ idx then 0 else idx) :: probeList L ((if L ≤ idx then 0 else idx) + 1) fuel

/-! # Theorems -/

/-- Evaluation of the pace table at the default pace. -/
theorem paceMultiplier_medium : paceMultiplier "medium" = 1 := by
  simp [paceMultiplier]

/-- Evaluation of the speed table at the walking profile. -/
theorem transportSpeed_walking : transportSpeed "foot-walking" = 9/2 := by
  simp [transportSpeed]

/-- C1, counterexample: with `start_to_poi_times = [100]` set, the
fitness of route `[0]` ignores the 100-minute start travel time entirely
(it equals 58, the value with zero first-leg travel), while the variant
that adds the start travel as the claim describes yields 48.  So
`calculate_fitness` does not add the travel time to the first POI. -/
theorem C1_fitness_ignores_start_travel_cex :
    calculate_fitness solverC1 [0] = 58 ∧
    calculate_fitness_specC1 solverC1 0 [0] = 48 ∧ (58 : ℚ) ≠ 48 := by
  refine ⟨?_, ?_, by norm_num⟩ <;>
    norm_num [calculate_fitness, calculate_fitness_specC1, fitnessFinal,
      fitnessWalk, fitnessLoop, fitnessStep, fitnessVisit, finalPenalties,
      travelCost, weatherWeight, userWeight, paceMultiplier_medium,
      calculate_urgency_weight, parse_opening_hours, solverC1, poiA,
      consLoose, WEIGHTS, max_def, min_def]

/-- C4, counterexample: in scenario S1 the schedule reports
total_duration 120 and end_time "11:00" (the smart visit-duration
redistribution expands the single POI's visit to the whole 120-minute
budget), not the claimed 60 and "10:00". -/
theorem C4_s1_schedule_cex :
    ((get_route_details solverS1 [0] (some (-1212/100, -7703/100))).map
      (fun d => d.total_duration)) = some 120 ∧
    ((get_route_details solverS1 [0] (some (-1212/100, -7703/100))).map
      (fun d => d.end_time)) = some "11:00" ∧
    (120 : ℚ) ≠ 60 ∧ "11:00" ≠ "10:00" := by
  refine ⟨?_, ?_, by norm_num, by decide⟩ <;>
    (norm_num [get_route_details, schedWalk, schedLoop, schedStep, schedTravel,
      totalTravel, legs, travelNoGuard, smartDuration, ratTrunc,
      minutes_to_time_string, pad2, transportSpeed_walking, solverS1, poiA,
      consS1, max_def, min_def] <;> decide)

/-- C4, amended: in scenario S1 the produced schedule has route = [A]
(timeline entry ids `[1]`), num_pois = 1, total_duration = 120 and
end_time "11:00" (the visit-time redistribution allocates the full
budget, clamped to [30, 180], to the single POI), and the fitness of
route [A] is 58 > 0. -/
theorem C4_s1_schedule_amended :
    ((detailsTimeline (get_route_details solverS1 [0]
        (some (-1212/100, -7703/100)))).map (fun e => e.poi_id)) = [1] ∧
    ((get_route_details solverS1 [0] (some (-1212/100, -7703/100))).map
      (fun d => (d.num_pois, d.total_duration, d.end_time, d.start_time)))
      = some (1, 120, "11:00", "09:00") ∧
    calculate_fitness solverS1 [0] = 58 ∧ (0 : ℚ) < 58 := by
  refine ⟨?_, ?_, ?_, by norm_num⟩ <;>
    (norm_num [get_route_details, detailsTimeline, schedWalk, schedLoop,
      schedStep, schedTravel, totalTravel, legs, travelNoGuard, smartDuration,
      ratTrunc, minutes_to_time_string, pad2, transportSpeed_walking,
      calculate_fitness, fitnessFinal, fitnessWalk, fitnessLoop, fitnessStep,
      fitnessVisit, finalPenalties, travelCost, weatherWeight, userWeight,
      paceMultiplier_medium, calculate_urgency_weight, parse_opening_hours,
      WEIGHTS, solverS1, poiA, consS1, max_def, min_def] <;> decide)

/-- C2, counterexample: the POI of `solverC2` closes at minute 500,
before the 09:00 (540) arrival, so evaluation steps 1-6 skip it (the
fitness walk visits nothing), yet `get_route_details` still emits a
timeline entry for it. -/
theorem C2_schedule_emits_closed_poi_cex :
    fitnessVisited solverC2 [0] = [] ∧
    ((detailsTimeline (get_route_details solverC2 [0] none)).map
      (fun e => e.poi_id)) = [7] ∧
    (solverC2.pois.getD 0 default).closing_time ≤ 540 := by
  refine ⟨by decide, ?_, by decide⟩
  norm_num [get_route_details, detailsTimeline, schedWalk, schedLoop, schedStep,
    schedTravel, totalTravel, legs, travelNoGuard, smartDuration, ratTrunc,
    minutes_to_time_string, pad2, solverC2, poiLate, consLoose, max_def, min_def]

/-- C3, counterexample: for a mapping with Monday 08:00-12:00 and
Tuesday 14:00-20:00 and requested day Tuesday, the orchestrator derives
the window (480, 720) from the first entry (Monday), while the parse of
the requested day's entry is (840, 1200): the POINode windows do not
come from the requested day. -/
theorem C3_window_not_requested_day_cex :
    derive_poi_window
      [("Monday", some "08:00-12:00"), ("Tuesday", some "14:00-20:00")]
      = (480, 720) ∧
    parse_opening_hours
      [("Monday", some "08:00-12:00"), ("Tuesday", some "14:00-20:00")]
      "Tuesday" = some (840, 1200) ∧
    ((480 : ℤ), (720 : ℤ)) ≠ ((840 : ℤ), (1200 : ℤ)) := by
  refine ⟨by decide, by decide, by decide⟩

/-- C6: the GA fallback branch of `generate_route` cannot run: the name
`GeneticAlgorithm` is not bound in the module scope of
`api/optimizer.py` (NameError), and even the keyword argument
`start_location` it passes is not a parameter of
`GeneticAlgorithm.__init__` (TypeError); so an empty ACO best route
produces an exception (HTTP 500), not a GA run. -/
theorem C6_ga_fallback_crashes :
    "GeneticAlgorithm" ∉ optimizerModuleNames ∧
    "start_location" ∈ gaFallbackKwargs ∧
    "start_location" ∉ gaInitParams ∧
    generate_route_after_aco [] = .error (.nameError "GeneticAlgorithm") := by
  refine ⟨by decide, by decide, by decide, rfl⟩

/-- C5, counterexample: the mapping Monday 22:00-02:00 parses to the
bounded window (1320, 1560); at now = 1500 with visit 120 the remaining
window 60 is ≤ the visit duration, so the claim requires urgency 0, but
`calculate_urgency_weight` returns 1 (the source treats any closing
minute ≥ 1440 as no-urgency). -/
theorem C5_midnight_window_cex :
    parse_opening_hours [("Monday", some "22:00-02:00")] "Monday"
      = some (1320, 1560) ∧
    ((1560 : ℚ) - 1500 ≤ 120) ∧
    calculate_urgency_weight [("Monday", some "22:00-02:00")] "Monday"
      1500 120 = 1 ∧
    (1 : ℚ) ≠ 0 := by
  refine ⟨by decide, by norm_num, by decide, by norm_num⟩

/-- C5, amended: for bounded windows with close_min < 1440 the urgency
follows the claimed piecewise formula; windows with close_min ≥ 1440
(24-hour windows and windows crossing midnight) yield 1.0; and the
result always lies in [0, 2]. -/
theorem C5_urgency_formula_amended (hd : HoursDict) (day : String)
    (now visit : ℚ) :
    (0 ≤ calculate_urgency_weight hd day now visit ∧
      calculate_urgency_weight hd day now visit ≤ 2) ∧
    (∀ o c : ℕ, parse_opening_hours hd day = some (o, c) →
      ((1440 ≤ c → calculate_urgency_weight hd day now visit = 1) ∧
       (c < 1440 →
         calculate_urgency_weight hd day now visit =
           if (c : ℚ) - now ≤ visit then 0
           else if (c : ℚ) - now - visit ≤ 30 then 2
           else if 180 ≤ (c : ℚ) - now - visit then 1
           else max 1 (min 2 (2 - ((c : ℚ) - now - visit - 30) / 150))))) := by
  constructor
  · unfold calculate_urgency_weight
    rcases parse_opening_hours hd day with _ | ⟨o, c⟩
    · norm_num
    · dsimp only
      split_ifs <;>
        refine ⟨?_, ?_⟩ <;>
        first
          | norm_num
          | exact le_trans zero_le_one (le_max_left 1 _)
          | exact max_le one_le_two (le_trans (min_le_left 2 _) le_rfl)
  · intro o c hp
    unfold calculate_urgency_weight
    rw [hp]
    dsimp only
    constructor
    · intro hc
      rw [if_pos hc]
    · intro hc
      rw [if_neg (show ¬ 1440 ≤ c by omega)]

/-- C5, witness: a Monday 09:00-12:00 window at now = 540 with visit 60
has slack 120, so the amended formula gives 2 − 90/150 = 7/5. -/
theorem C5_urgency_formula_witness :
    parse_opening_hours [("Monday", some "09:00-12:00")] "Monday"
      = some (540, 720) ∧
    calculate_urgency_weight [("Monday", some "09:00-12:00")] "Monday"
      540 60 = 7/5 := by
  have hp : parse_opening_hours [("Monday", some "09:00-12:00")] "Monday"
      = some (540, 720) := by decide
  refine ⟨hp, ?_⟩
  have h := ((C5_urgency_formula_amended
    [("Monday", some "09:00-12:00")] "Monday" 540 60).2 540 720 hp).2
    (by norm_num)
  rw [h]
  norm_num [max_def, min_def]

/-- C3, amended: the derived POINode window is exactly the first
parsable (hyphen-splittable) entry of the opening-hours mapping in
insertion order, with default (540, 1080); the requested day is never
consulted. -/
theorem C3_window_first_entry_amended (hd : HoursDict) :
    derive_poi_window hd = (firstHyphenWindow hd).getD (540, 1080) := by
  induction hd with
  | nil => rfl
  | cons p rest ih =>
    obtain ⟨d, v⟩ := p
    simp only [derive_poi_window, firstHyphenWindow, List.findSome?_cons]
    rcases entryWindow v with _ | w
    · simpa [firstHyphenWindow] using ih
    · rfl

/-- C1, amended: `calculate_fitness` never reads `start_to_poi_times`
(first conjunct), and for a single-POI route it reads neither the
travel-time matrix nor the haversine estimator (second conjunct): no
travel time at all is added for the first POI; `dist_matrix[prev][idx]`
is added only for `i > 0`. -/
theorem C1_fitness_first_poi_travel_amended :
    (∀ (slv : TOPTWSolver) (t1 t2 : Option (List ℚ)) (route : List ℕ),
      calculate_fitness { slv with start_to_poi_times := t1 } route =
        calculate_fitness { slv with start_to_poi_times := t2 } route) ∧
    (∀ (slv : TOPTWSolver) (m1 m2 : Option (List (List ℚ)))
      (e1 e2 : POINode → POINode → ℚ) (t1 t2 : Option (List ℚ)) (j : ℕ),
      calculate_fitness
          { slv with time_matrix := m1, est := e1, start_to_poi_times := t1 } [j] =
        calculate_fitness
          { slv with time_matrix := m2, est := e2, start_to_poi_times := t2 } [j]) := by
  constructor
  · intro slv t1 t2 route
    have hloop : ∀ (route : List ℕ) (t : Option (List ℚ)) (prev : Option ℕ)
        (st : FitState),
        fitnessLoop { slv with start_to_poi_times := t } prev st route =
          fitnessLoop slv prev st route := by
      intro route
      induction route with
      | nil => intro t prev st; rfl
      | cons idx rest ih =>
        intro t prev st
        show fitnessLoop { slv with start_to_poi_times := t } (some idx)
            (fitnessStep { slv with start_to_poi_times := t } prev st idx) rest =
          fitnessLoop slv (some idx) (fitnessStep slv prev st idx) rest
        rw [show fitnessStep { slv with start_to_poi_times := t } prev st idx =
          fitnessStep slv prev st idx from rfl]
        exact ih t (some idx) (fitnessStep slv prev st idx)
    unfold calculate_fitness fitnessWalk
    simp only [hloop]
    rfl
  · intro slv m1 m2 e1 e2 t1 t2 j
    rfl

/-- Arithmetic shape of the empty-walk penalties, all branches taken. -/
theorem fpShape1 (A md mb : ℚ) (hA : 0 ≤ A) (h1 : md < 0) (h2 : mb < 0) :
    (0:ℚ) ≤ 0 + 100 * A + (0 - md) * 2 + (0 - mb) * (1/2) * 10 + (0 - md) * 2 := by
  linarith

/-- Arithmetic shape of the empty-walk penalties, duration branch only. -/
theorem fpShape2 (A md : ℚ) (hA : 0 ≤ A) (h1 : md < 0) :
    (0:ℚ) ≤ 0 + 100 * A + (0 - md) * 2 + (0 - md) * 2 := by
  linarith

/-- Arithmetic shape of the empty-walk penalties, budget branch only. -/
theorem fpShape3 (A mb : ℚ) (hA : 0 ≤ A) (h2 : mb < 0) :
    (0:ℚ) ≤ 0 + 100 * A + (0 - mb) * (1/2) * 10 := by
  linarith

/-- Arithmetic shape of the empty-walk penalties, no branch taken. -/
theorem fpShape4 (A : ℚ) (hA : 0 ≤ A) : (0:ℚ) ≤ 0 + 100 * A := by
  linarith

/-- The post-loop penalties of the initial (empty-walk) state are
non-negative. -/
theorem finalPenalties_init_nonneg (slv : TOPTWSolver) (c : ℚ) :
    0 ≤ finalPenalties slv { current_time := c } := by
  unfold finalPenalties
  dsimp only
  simp only [WEIGHTS, zero_mul]
  split_ifs with h1 h2 h3
  · exact fpShape1 _ _ _ (Nat.cast_nonneg _) h1 h2
  · exact fpShape2 _ _ (Nat.cast_nonneg _) h1
  · exact fpShape3 _ _ (Nat.cast_nonneg _) h3
  · exact fpShape4 _ (Nat.cast_nonneg _)

/-- C8: for every route of valid indices and a travel-time matrix of
matching dimensions, `calculate_fitness` returns (totally, no exception)
a value that is non-negative and equal to
max(0, score − travel_time_penalty·total_time − cost_penalty·total_cost
− penalties), the quantities being those accumulated by the fitness
walk. -/
theorem C8_fitness_nonneg (slv : TOPTWSolver) (route : List ℕ)
    (M : List (List ℚ)) (hM : slv.time_matrix = some M)
    (hsq : M.length = slv.pois.length)
    (hrows : ∀ r ∈ M, r.length = slv.pois.length)
    (hroute : ∀ i ∈ route, i < slv.pois.length) :
    0 ≤ calculate_fitness slv route ∧
    calculate_fitness slv route =
      max 0 ((fitnessWalk slv route).total_score
        - WEIGHTS.travel_time_penalty * (fitnessWalk slv route).total_time
        - WEIGHTS.cost_penalty * (fitnessWalk slv route).total_cost
        - finalPenalties slv (fitnessWalk slv route)) := by
  constructor
  · unfold calculate_fitness
    split
    · exact le_refl 0
    · exact le_max_left 0 _
  · unfold calculate_fitness fitnessFinal
    split
    · next h =>
        subst h
        show (0:ℚ) = max 0 (0 - WEIGHTS.travel_time_penalty * 0
          - WEIGHTS.cost_penalty * 0
          - finalPenalties slv { current_time := slv.constraints.start_time })
        have hX : (0:ℚ) - WEIGHTS.travel_time_penalty * 0
            - WEIGHTS.cost_penalty * 0
            - finalPenalties slv { current_time := slv.constraints.start_time }
            ≤ 0 := by
          rw [mul_zero, mul_zero]
          linarith [finalPenalties_init_nonneg slv slv.constraints.start_time]
        exact (max_eq_left hX).symm
    · rfl

/-- C8, witness: the S1 solver with its 1×1 matrix and route [0]. -/
theorem C8_fitness_nonneg_witness :
    0 ≤ calculate_fitness solverS1 [0] := by
  exact (C8_fitness_nonneg solverS1 [0] [[0]] rfl (by decide) (by decide)
    (by decide)).1

/-- Evaporation then deposit preserves non-negativity of one cell, for a
non-negative deposit. -/
theorem depositPair_nonneg (τ : Phero) (u v : ℕ) (d : ℚ)
    (h : PherNonneg τ) (hd : 0 ≤ d) : PherNonneg (depositPair τ u v d) := by
  intro i j
  simp only [depositPair, pherSet]
  split_ifs <;> first
    | linarith [h u v, h v u, h i j]
    | exact h i j

/-- The two-sided deposit preserves symmetry. -/
theorem depositPair_symm (τ : Phero) (u v : ℕ) (d : ℚ)
    (h : PherSymm τ) : PherSymm (depositPair τ u v d) := by
  intro i j
  simp only [depositPair, pherSet]
  split_ifs <;>
    first
      | rfl
      | (exact congrArg (· + d) (h v u))
      | (exact congrArg (· + d) (h u v))
      | (exact h i j)
      | (exfalso; omega)

/-- Route deposit preserves non-negativity. -/
theorem depositRoute_nonneg (d : ℚ) (hd : 0 ≤ d) :
    ∀ (route : List ℕ) (τ : Phero), PherNonneg τ →
      PherNonneg (depositRoute d τ route) := by
  intro route
  induction route with
  | nil => intro τ h; exact h
  | cons a rest ih =>
    intro τ h
    cases rest with
    | nil => exact h
    | cons b rest2 =>
      exact ih (depositPair τ a b d) (depositPair_nonneg τ a b d h hd)

/-- Route deposit preserves symmetry. -/
theorem depositRoute_symm (d : ℚ) :
    ∀ (route : List ℕ) (τ : Phero), PherSymm τ →
      PherSymm (depositRoute d τ route) := by
  intro route
  induction route with
  | nil => intro τ h; exact h
  | cons a rest ih =>
    intro τ h
    cases rest with
    | nil => exact h
    | cons b rest2 =>
      exact ih (depositPair τ a b d) (depositPair_symm τ a b d h)

/-- C9: the pheromone matrix starts at the positive constant 0.1 in
every cell; one `_update_pheromones` step (evaporation by 1 − ρ, then a
symmetric deposit of q·fitness along each route with fitness > 0)
preserves non-negativity and symmetry; and solutions with fitness ≤ 0
deposit nothing (the update is pure evaporation). -/
theorem C9_pheromone_invariants (τ : Phero) (ρ q : ℚ)
    (sols : List (List ℕ × ℚ)) (hr0 : 0 ≤ ρ) (hr1 : ρ ≤ 1) (hq : 0 ≤ q)
    (hnn : PherNonneg τ) (hsym : PherSymm τ) :
    (∀ i j, initPheromone i j = 1/10 ∧ (0:ℚ) < initPheromone i j) ∧
    PherNonneg (update_pheromones ρ q τ sols) ∧
    PherSymm (update_pheromones ρ q τ sols) ∧
    ((∀ s ∈ sols, s.2 ≤ 0) →
      ∀ i j, update_pheromones ρ q τ sols i j = (1 - ρ) * τ i j) := by
  have hbase_nn : PherNonneg (fun i j => (1 - ρ) * τ i j) := by
    intro i j
    exact mul_nonneg (by linarith) (hnn i j)
  have hbase_sym : PherSymm (fun i j => (1 - ρ) * τ i j) := by
    intro i j
    exact congrArg ((1 - ρ) * ·) (hsym i j)
  have hfold : ∀ (l : List (List ℕ × ℚ)) (acc : Phero),
      PherNonneg acc → PherSymm acc →
      PherNonneg (l.foldl
        (fun acc s => if s.2 ≤ 0 then acc else depositRoute (q * s.2) acc s.1)
        acc) ∧
      PherSymm (l.foldl
        (fun acc s => if s.2 ≤ 0 then acc else depositRoute (q * s.2) acc s.1)
        acc) := by
    intro l
    induction l with
    | nil => intro acc h1 h2; exact ⟨h1, h2⟩
    | cons s rest ih =>
      intro acc h1 h2
      simp only [List.foldl_cons]
      by_cases hf : s.2 ≤ 0
      · rw [if_pos hf]
        exact ih acc h1 h2
      · rw [if_neg hf]
        have hd : 0 ≤ q * s.2 :=
          mul_nonneg hq (le_of_lt (not_le.mp hf))
        exact ih (depositRoute (q * s.2) acc s.1)
          (depositRoute_nonneg (q * s.2) hd s.1 acc h1)
          (depositRoute_symm (q * s.2) s.1 acc h2)
  refine ⟨fun i j => ⟨rfl, by norm_num [initPheromone]⟩, ?_, ?_, ?_⟩
  · exact (hfold sols _ hbase_nn hbase_sym).1
  · exact (hfold sols _ hbase_nn hbase_sym).2
  · intro hall i j
    have hid : ∀ (l : List (List ℕ × ℚ)) (acc : Phero),
        (∀ s ∈ l, s.2 ≤ 0) →
        l.foldl
          (fun acc s => if s.2 ≤ 0 then acc else depositRoute (q * s.2) acc s.1)
          acc = acc := by
      intro l
      induction l with
      | nil => intro acc _; rfl
      | cons s rest ih =>
        intro acc hall2
        simp only [List.foldl_cons, if_pos (hall2 s (List.mem_cons_self s rest))]
        exact ih acc (fun x hx => hall2 x (List.mem_cons_of_mem s hx))
    rw [show update_pheromones ρ q τ sols =
      sols.foldl
        (fun acc s => if s.2 ≤ 0 then acc else depositRoute (q * s.2) acc s.1)
        (fun i j => (1 - ρ) * τ i j) from rfl]
    rw [hid sols _ hall]

/-- C9, witness: the default parameters ρ = 0.1, q = 100, the initial
matrix, and one positive-fitness solution. -/
theorem C9_pheromone_invariants_witness :
    PherNonneg (update_pheromones (1/10) 100 initPheromone [([0, 1], 5)]) ∧
    PherSymm (update_pheromones (1/10) 100 initPheromone [([0, 1], 5)]) := by
  have h := C9_pheromone_invariants initPheromone (1/10) 100 [([0, 1], 5)]
    (by norm_num) (by norm_num) (by norm_num)
    (fun i j => by norm_num [initPheromone])
    (fun i j => rfl)
  exact ⟨h.2.1, h.2.2.1⟩

/-- C10: calling `get_distance_matrix` again with the identical
coordinate list and profile returns the stored matrix from the cache,
leaves the cache unchanged, and invokes no provider and no geodesic
recomputation (the `Bool` component is `false`). -/
theorem C10_matrix_cache (P : Providers) (cache : MatrixCache)
    (coords : List (ℚ × ℚ)) (profile : String) :
    get_distance_matrix P (get_distance_matrix P cache coords profile).2.1
      coords profile
      = ((get_distance_matrix P cache coords profile).1,
         (get_distance_matrix P cache coords profile).2.1, false) := by
  unfold get_distance_matrix
  dsimp only
  rcases hfind : cache.find? (fun e => e.1 = (coords, profile)) with _ | e
  · rw [hfind]
    dsimp only
    rcases hors : (if P.use_api then P.ors coords profile else none) with _ | m
    · dsimp only
      rcases hosrm : P.osrm coords profile with _ | m2
      · dsimp only
        rw [List.find?_cons_of_pos _ (by simp)]
      · dsimp only
        rw [List.find?_cons_of_pos _ (by simp)]
    · dsimp only
      rw [List.find?_cons_of_pos _ (by simp)]
  · rw [hfind]
    dsimp only
    rw [hfind]

/-- Invariant of the timeline loop: relative to the incoming state it
appends `tl` entries and `sk` skipped pairs whose ids are a subsequence
of the remaining route, the counts add up to the route length, and every
skipped POI had a wait above 30 minutes. -/
theorem schedLoop_props (slv : TOPTWSolver) (durOf : ℕ → ℚ)
    (loc : Option (ℚ × ℚ)) :
    ∀ (route : List ℕ) (isFirst : Bool) (prev : Option ℕ) (st : SchedState),
    ∃ tl sk,
      (schedLoop slv durOf loc isFirst prev st route).timeline
        = st.timeline ++ tl ∧
      (schedLoop slv durOf loc isFirst prev st route).skipped
        = st.skipped ++ sk ∧
      (tl.map (fun e => e.poi_id)).Sublist
        (route.map (fun i => (slv.pois.getD i default).id)) ∧
      tl.length + sk.length = route.length ∧
      (∀ p ∈ sk, (30:ℚ) < p.2) := by
  intro route
  induction route with
  | nil =>
    intro isFirst prev st
    exact ⟨[], [], by simp [schedLoop], by simp [schedLoop], by simp, by simp,
      by simp⟩
  | cons idx rest ih =>
    intro isFirst prev st
    rw [show schedLoop slv durOf loc isFirst prev st (idx :: rest)
        = schedLoop slv durOf loc false (some idx)
            (schedStep slv durOf loc isFirst prev st idx) rest from rfl]
    by_cases hskip : st.current_time + schedTravel slv loc isFirst prev idx <
        (slv.pois.getD idx default).opening_time ∧
        30 < (slv.pois.getD idx default).opening_time -
          (st.current_time + schedTravel slv loc isFirst prev idx)
    · have hstep : schedStep slv durOf loc isFirst prev st idx =
          { st with
            current_time := st.current_time + schedTravel slv loc isFirst prev idx,
            skipped := st.skipped ++ [(idx, (slv.pois.getD idx default).opening_time
              - (st.current_time + schedTravel slv loc isFirst prev idx))] } := by
        simp only [schedStep]
        rw [if_pos hskip]
      obtain ⟨tl, sk, h1, h2, h3, h4, h5⟩ :=
        ih false (some idx) (schedStep slv durOf loc isFirst prev st idx)
      refine ⟨tl, (idx, (slv.pois.getD idx default).opening_time
        - (st.current_time + schedTravel slv loc isFirst prev idx)) :: sk,
        ?_, ?_, ?_, ?_, ?_⟩
      · rw [h1, hstep]
      · rw [h2, hstep]
        simp
      · exact h3.cons _
      · simp only [List.length_cons, List.length_map]
        omega
      · intro p hp
        rcases List.mem_cons.mp hp with hp | hp
        · subst hp
          exact hskip.2
        · exact h5 p hp
    · have hstep : ∃ entry : TLEntry,
          (schedStep slv durOf loc isFirst prev st idx).timeline
            = st.timeline ++ [entry] ∧
          entry.poi_id = (slv.pois.getD idx default).id ∧
          (schedStep slv durOf loc isFirst prev st idx).skipped = st.skipped := by
        simp only [schedStep]
        rw [if_neg hskip]
        exact ⟨_, rfl, rfl, rfl⟩
      obtain ⟨entry, ht, he, hs⟩ := hstep
      obtain ⟨tl, sk, h1, h2, h3, h4, h5⟩ :=
        ih false (some idx) (schedStep slv durOf loc isFirst prev st idx)
      refine ⟨entry :: tl, sk, ?_, ?_, ?_, ?_, h5⟩
      · rw [h1, ht]
        simp
      · rw [h2, hs]
      · simp only [List.map_cons, he]
        exact h3.cons₂ _
      · simp only [List.length_cons, List.length_map]
        omega

/-- C2, amended: `get_route_details` emits a timeline entry for exactly
those route POIs whose required wait in its own walk is at most
MAX_WAIT (every skipped POI has wait > 30, and entry and skipped counts
partition the route); arrival-after-closing, insufficient-time and
avoided-category POIs are not suppressed (see the counterexample); the
emitted poi ids are a subsequence of the route's ids, preserving
relative order. -/
theorem C2_schedule_skip_rule_amended (slv : TOPTWSolver) (route : List ℕ)
    (loc : Option (ℚ × ℚ)) (hv : ∀ i ∈ route, i < slv.pois.length) :
    ((schedWalk slv route loc).timeline.map (fun e => e.poi_id)).Sublist
      (route.map (fun i => (slv.pois.getD i default).id)) ∧
    (schedWalk slv route loc).timeline.length
      + (schedWalk slv route loc).skipped.length = route.length ∧
    (∀ p ∈ (schedWalk slv route loc).skipped, (30:ℚ) < p.2) ∧
    detailsTimeline (get_route_details slv route loc)
      = (schedWalk slv route loc).timeline := by
  obtain ⟨tl, sk, h1, h2, h3, h4, h5⟩ :=
    schedLoop_props slv
      (smartDuration slv
        (slv.constraints.max_duration - totalTravel slv route loc)
        ((route.map (fun i => (slv.pois.getD i default).popularity)).sum))
      loc route true none { current_time := slv.constraints.start_time }
  have hw : schedWalk slv route loc = schedLoop slv
      (smartDuration slv
        (slv.constraints.max_duration - totalTravel slv route loc)
        ((route.map (fun i => (slv.pois.getD i default).popularity)).sum))
      loc true none { current_time := slv.constraints.start_time } route := rfl
  have htl : (schedWalk slv route loc).timeline = tl := by
    rw [hw, h1]
    simp
  have hsk : (schedWalk slv route loc).skipped = sk := by
    rw [hw, h2]
    simp
  refine ⟨?_, ?_, ?_, ?_⟩
  · rw [htl]
    exact h3
  · rw [htl, hsk]
    simpa using h4
  · rw [hsk]
    exact h5
  · cases route with
    | nil => rfl
    | cons a rest => rfl

/-- C2, witness: the amended claim applied to the concrete `solverC2`
scenario. -/
theorem C2_schedule_skip_rule_witness :
    ((schedWalk solverC2 [0] none).timeline.map (fun e => e.poi_id)).Sublist
      ([0].map (fun i => (solverC2.pois.getD i default).id)) ∧
    (schedWalk solverC2 [0] none).timeline.length
      + (schedWalk solverC2 [0] none).skipped.length = 1 ∧
    (∀ p ∈ (schedWalk solverC2 [0] none).skipped, (30:ℚ) < p.2) ∧
    detailsTimeline (get_route_details solverC2 [0] none)
      = (schedWalk solverC2 [0] none).timeline := by
  have h := C2_schedule_skip_rule_amended solverC2 [0] none (by decide)
  simpa using h

/-! ## C7: ordered crossover -/

theorem findFree_eq_probe (child : List ℤ) :
    ∀ (fuel idx : ℕ),
      findFree child idx fuel
        = (probeList child.length idx fuel).find?
            (fun i => child.getD i 0 = -1) := by
  intro fuel
  induction fuel with
  | zero => intro idx; rfl
  | succ n ih =>
    intro idx
    rw [probeList, findFree]
    by_cases hc : child.getD (if child.length ≤ idx then 0 else idx) 0 = -1
    · rw [if_pos hc, List.find?_cons_of_pos _ (by simpa using hc)]
    · rw [if_neg hc, List.find?_cons_of_neg _ (by simpa using hc), ih]

theorem scanOrder_length (L idx : ℕ) : (scanOrder L idx).length = L := by
  simp [scanOrder]
  omega

theorem probeList_eq_take (L : ℕ) :
    ∀ (fuel idx : ℕ), idx ≤ L → fuel ≤ L →
      probeList L idx fuel = (scanOrder L idx).take fuel := by
  intro fuel
  induction fuel with
  | zero => intro idx h1 h2; simp [probeList]
  | succ n ih =>
    intro idx h1 h2
    have hL : 0 < L := by omega
    by_cases hidx : idx < L
    · rw [probeList, if_neg (by omega)]
      have hdrop : (List.range L).drop idx
          = idx :: (List.range L).drop (idx + 1) := by
        rw [List.drop_eq_getElem_cons (by simpa using hidx)]
        simp
      have hscan : scanOrder L idx
          = idx :: ((List.range L).drop (idx + 1) ++ (List.range L).take idx) := by
        rw [scanOrder, hdrop]
        rfl
      rw [hscan, List.take_succ_cons]
      congr 1
      rw [ih (idx + 1) (by omega) (by omega), scanOrder]
      have htake : (List.range L).take (idx + 1)
          = (List.range L).take idx ++ [idx] := by
        rw [List.take_succ, List.getElem?_range hidx]
        rfl
      rw [htake, ← List.append_assoc]
      rw [List.take_append_of_le_length (by
        simp [List.length_drop, List.length_take]
        omega)]
    · have hidxL : L = idx := by omega
      subst hidxL
      rw [probeList, if_pos le_rfl]
      have hscan : scanOrder L L = List.range L := by
        rw [scanOrder, List.drop_of_length_le (by simp),
          List.take_of_length_le (by simp), List.nil_append]
      rw [hscan]
      have hdrop : List.range L = 0 :: (List.range L).drop 1 := by
        have h0 := List.drop_eq_getElem_cons
          (show (0:ℕ) < (List.range L).length by simpa using hL)
        rw [List.drop_zero] at h0
        simpa using h0
      conv_rhs => rw [hdrop]
      rw [List.take_succ_cons]
      congr 1
      rw [ih 1 (by omega) (by omega), scanOrder]
      have htake1 : (List.range L).take 1 = [0] := by
        rw [show (1:ℕ) = 0 + 1 from rfl, List.take_succ, List.getElem?_range hL]
        rfl
      rw [htake1]
      rw [List.take_append_of_le_length (by
        simp [List.length_drop]
        omega)]

theorem findFree_eq_find (child : List ℤ) (idx : ℕ) (h : idx ≤ child.length) :
    findFree child idx child.length
      = (scanOrder child.length idx).find? (fun i => child.getD i 0 = -1) := by
  rw [findFree_eq_probe, probeList_eq_take child.length child.length idx h le_rfl]
  rw [List.take_of_length_le (by rw [scanOrder_length])]

theorem find?_eq_head?_filter (p : ℕ → Bool) :
    ∀ l : List ℕ, l.find? p = (l.filter p).head? := by
  intro l
  induction l with
  | nil => rfl
  | cons a rest ih =>
    by_cases h : p a
    · rw [List.find?_cons_of_pos _ h, List.filter_cons_of_pos h]
      rfl
    · rw [List.find?_cons_of_neg _ (by simpa using h),
        List.filter_cons_of_neg (by simpa using h), ih]

theorem scanOrder_rotate (L idx : ℕ) (h : idx ≤ L) :
    scanOrder L idx = (List.range L).rotate idx := by
  rw [List.rotate_eq_drop_append_take (by simpa using h)]
  rfl

theorem scanOrder_of_mem (L idx j : ℕ) (hidx : idx ≤ L)
    (A B : List ℕ) (hAB : scanOrder L idx = A ++ j :: B) :
    scanOrder L j = j :: (B ++ A) := by
  have hlenr : (List.range L).length = L := by simp
  have hrot : scanOrder L idx = (List.range L).rotate idx :=
    scanOrder_rotate L idx hidx
  have hrotAB : (List.range L).rotate idx = A ++ j :: B := by
    rw [← hrot, hAB]
  have hjL : j < L := by
    have hjmem : j ∈ scanOrder L idx := by
      rw [hAB]
      simp
    rw [hrot] at hjmem
    simpa using List.mem_rotate.mp hjmem
  have hlenAB : A.length + (B.length + 1) = L := by
    have := congrArg List.length hAB
    rw [scanOrder_length] at this
    simp at this
    omega
  have hlenA : A.length < L := by omega
  have hblen : A.length < (A ++ j :: B).length := by
    simp only [List.length_append, List.length_cons]
    omega
  have hgetAB : (A ++ j :: B)[A.length] = j := by
    rw [List.getElem_append_right le_rfl]
    simp
  have hj_eq : (A.length + idx) % L = j := by
    have hrblen : A.length < ((List.range L).rotate idx).length := by
      rw [List.length_rotate, hlenr]
      exact hlenA
    have hA : ((List.range L).rotate idx)[A.length] = j :=
      (List.getElem_of_eq hrotAB _).trans hgetAB
    rw [List.getElem_rotate, List.getElem_range] at hA
    rwa [hlenr] at hA
  rw [scanOrder_rotate L j (le_of_lt hjL)]
  conv_lhs =>
    rw [← hj_eq,
      show (A.length + idx) % L = (A.length + idx) % (List.range L).length from
        by rw [hlenr],
      List.rotate_mod, Nat.add_comm A.length idx, ← List.rotate_rotate,
      ← hrot, hAB]
  rw [List.rotate_eq_drop_append_take (by
    simp only [List.length_append, List.length_cons]
    omega), List.drop_left, List.take_left]
  rfl

theorem getD_set_same (child : List ℤ) (j : ℕ) (g : ℤ) (hj : j < child.length) :
    (child.set j g).getD j 0 = g := by
  rw [List.getD_eq_getElem?_getD, List.getElem?_set_eq_of_lt g hj]
  rfl

theorem getD_set_other (child : List ℤ) (j a : ℕ) (g : ℤ) (ha : a ≠ j) :
    (child.set j g).getD a 0 = child.getD a 0 := by
  rw [List.getD_eq_getElem?_getD, List.getElem?_set_ne (by omega),
    ← List.getD_eq_getElem?_getD]

theorem mem_scanOrder_lt (L idx a : ℕ) (h : a ∈ scanOrder L idx) : a < L := by
  rw [scanOrder] at h
  rcases List.mem_append.mp h with h | h
  · simpa using List.mem_of_mem_drop h
  · simpa using List.mem_of_mem_take h

theorem filter_scan_set (child : List ℤ) (idx j : ℕ) (g : ℤ) (hg : g ≠ -1)
    (hidx : idx ≤ child.length) (rest : List ℕ)
    (hF : (scanOrder child.length idx).filter
      (fun i => child.getD i 0 = -1) = j :: rest) :
    (scanOrder child.length j).filter
      (fun i => (child.set j g).getD i 0 = -1) = rest := by
  obtain ⟨A, B, hAB, hAfail, hj, hBrest⟩ := List.filter_eq_cons_iff.mp hF
  have hscanj : scanOrder child.length j = j :: (B ++ A) :=
    scanOrder_of_mem child.length idx j hidx A B hAB
  have hjL : j < child.length := by
    refine mem_scanOrder_lt child.length idx j ?_
    rw [hAB]
    simp
  have hnodup : (A ++ j :: B).Nodup := by
    rw [← hAB, scanOrder_rotate child.length idx hidx]
    exact List.nodup_rotate.mpr (List.nodup_range child.length)
  obtain ⟨hndA, hndJB, hdisj⟩ := List.nodup_append.mp hnodup
  have hjA : j ∉ A := fun hmem => hdisj hmem (List.mem_cons_self j B)
  have hjB : j ∉ B := (List.nodup_cons.mp hndJB).1
  rw [hscanj]
  rw [List.filter_cons_of_neg (by
    simp only [getD_set_same child j g hjL]
    simpa using hg)]
  rw [List.filter_append]
  have hBsame : B.filter (fun i => (child.set j g).getD i 0 = -1)
      = B.filter (fun i => child.getD i 0 = -1) := by
    refine List.filter_congr ?_
    intro x hx
    have hxj : x ≠ j := fun heq => hjB (heq ▸ hx)
    simp [List.getD_eq_getElem?_getD, List.getElem?_set_ne (Ne.symm hxj)]
  have hAsame : A.filter (fun i => (child.set j g).getD i 0 = -1) = [] := by
    rw [List.filter_eq_nil_iff]
    intro x hx
    have hxj : x ≠ j := fun heq => hjA (heq ▸ hx)
    simp only [getD_set_other child j x g hxj]
    exact hAfail x hx
  rw [hBsame, hBrest, hAsame, List.append_nil]

theorem oxFill_spec :
    ∀ (genes : List ℤ) (child : List ℤ) (idx : ℕ),
      idx ≤ child.length →
      (∀ g ∈ genes, g ≠ -1) →
      genes.length = ((scanOrder child.length idx).filter
        (fun i => child.getD i 0 = -1)).length →
      ∃ res, oxFill child idx genes = some res ∧
        res.length = child.length ∧
        (∀ i, i < child.length → child.getD i 0 ≠ -1 →
          res.getD i 0 = child.getD i 0) ∧
        ((scanOrder child.length idx).filter
          (fun i => child.getD i 0 = -1)).map (fun i => res.getD i 0) = genes := by
  intro genes
  induction genes with
  | nil =>
    intro child idx h1 h2 h3
    refine ⟨child, rfl, rfl, fun i _ _ => rfl, ?_⟩
    have hnil : (scanOrder child.length idx).filter
        (fun i => child.getD i 0 = -1) = [] :=
      List.length_eq_zero.mp h3.symm
    rw [hnil]
    rfl
  | cons g gs ih =>
    intro child idx h1 h2 h3
    rcases hF : (scanOrder child.length idx).filter
        (fun i => child.getD i 0 = -1) with _ | ⟨j, rest⟩
    · rw [hF] at h3
      simp at h3
    · have hfind : findFree child idx child.length = some j := by
        rw [findFree_eq_find child idx h1, find?_eq_head?_filter, hF]
        rfl
      have hstep : oxFill child idx (g :: gs) = oxFill (child.set j g) j gs := by
        rw [oxFill, hfind]
      have hjmemF : j ∈ (scanOrder child.length idx).filter
          (fun i => child.getD i 0 = -1) := by
        rw [hF]
        exact List.mem_cons_self _ _
      have hjmem := List.mem_filter.mp hjmemF
      have hjL : j < child.length := mem_scanOrder_lt _ idx j hjmem.1
      have hjfree : child.getD j 0 = -1 := by simpa using hjmem.2
      have hgne : g ≠ -1 := h2 g (List.mem_cons_self g gs)
      have htail := filter_scan_set child idx j g hgne h1 rest hF
      have hlen2 : gs.length = ((scanOrder (child.set j g).length j).filter
          (fun i => (child.set j g).getD i 0 = -1)).length := by
        rw [List.length_set, htail]
        have h4 := h3
        rw [hF] at h4
        simpa using h4
      obtain ⟨res, hres, hlen, hpres, hmap⟩ := ih (child.set j g) j
        (by rw [List.length_set]; exact le_of_lt hjL)
        (fun x hx => h2 x (List.mem_cons_of_mem g hx)) hlen2
      refine ⟨res, by rw [hstep]; exact hres, by rw [hlen, List.length_set], ?_, ?_⟩
      · intro i hiL hifree
        have hij : i ≠ j := fun heq => hifree (heq ▸ hjfree)
        have h5 : (child.set j g).getD i 0 = child.getD i 0 :=
          getD_set_other child j i g hij
        have h6 := hpres i (by rw [List.length_set]; exact hiL)
          (by rw [h5]; exact hifree)
        rw [h6, h5]
      · rw [List.map_cons]
        congr 1
        · have h6 : (child.set j g).getD j 0 = g := getD_set_same child j g hjL
          have h7 := hpres j (by rw [List.length_set]; exact hjL)
            (by rw [h6]; exact hgne)
          rw [h7, h6]
        · have h8 := hmap
          rw [List.length_set, htail] at h8
          exact h8

theorem oxChildInit_length (p1 : List ℤ) (s e : ℕ) :
    (oxChildInit p1 s e).length = p1.length := by
  simp [oxChildInit]

theorem oxChildInit_getD (p1 : List ℤ) (s e i : ℕ) (h : i < p1.length) :
    (oxChildInit p1 s e).getD i 0
      = if s ≤ i ∧ i < e then p1.getD i (-1) else -1 := by
  rw [List.getD_eq_getElem _ _ (by rw [oxChildInit_length]; exact h)]
  simp [oxChildInit]

theorem p1_getD_ne (p1 : List ℤ) (hpos : ∀ g ∈ p1, (0:ℤ) ≤ g) (a : ℕ)
    (ha : a < p1.length) : p1.getD a (-1) ≠ -1 := by
  rw [List.getD_eq_getElem _ _ ha]
  have := hpos _ (List.getElem_mem ha)
  omega

theorem mem_drop_range (L n a : ℕ) (h : a ∈ (List.range L).drop n) :
    n ≤ a ∧ a < L := by
  obtain ⟨i, hi, hget⟩ := List.mem_iff_getElem.mp h
  have hiL : n + i < L := by
    have h2 := hi
    simp only [List.length_drop, List.length_range] at h2
    omega
  rw [List.getElem_drop, List.getElem_range] at hget
  omega

theorem scan_filter_init (p1 : List ℤ) (cx1 cx2 : ℕ)
    (hpos : ∀ g ∈ p1, (0:ℤ) ≤ g) (h12 : cx1 ≤ cx2) (h2L : cx2 ≤ p1.length) :
    (scanOrder p1.length cx2).filter
      (fun i => (oxChildInit p1 cx1 cx2).getD i 0 = -1)
      = freeSlots p1.length cx1 cx2 := by
  obtain ⟨d, rfl⟩ : ∃ d, cx2 = cx1 + d := ⟨cx2 - cx1, by omega⟩
  rw [scanOrder, freeSlots, List.filter_append]
  congr 1
  · rw [List.filter_eq_self]
    intro a ha
    obtain ⟨hge, hlt⟩ := mem_drop_range p1.length (cx1 + d) a ha
    simp only [oxChildInit_getD p1 cx1 (cx1 + d) a hlt]
    rw [if_neg (by omega)]
    simp
  · rw [List.take_range, show min (cx1 + d) p1.length = cx1 + d by omega,
      List.take_range, show min cx1 p1.length = cx1 by omega]
    rw [List.range_add, List.filter_append]
    have hp2 : (List.filter (fun i => (oxChildInit p1 cx1 (cx1 + d)).getD i 0 = -1)
        ((List.range d).map (fun x => cx1 + x))) = [] := by
      rw [List.filter_eq_nil_iff]
      intro a ha
      obtain ⟨x, hx, rfl⟩ := List.mem_map.mp ha
      have hxd : x < d := List.mem_range.mp hx
      simp only [oxChildInit_getD p1 cx1 (cx1 + d) (cx1 + x) (by omega)]
      rw [if_pos (by omega)]
      simpa using p1_getD_ne p1 hpos (cx1 + x) (by omega)
    have hp1 : (List.filter (fun i => (oxChildInit p1 cx1 (cx1 + d)).getD i 0 = -1)
        (List.range cx1)) = List.range cx1 := by
      rw [List.filter_eq_self]
      intro a ha
      have hacx : a < cx1 := List.mem_range.mp ha
      simp only [oxChildInit_getD p1 cx1 (cx1 + d) a (by omega)]
      rw [if_neg (by omega)]
      simp
    rw [hp1, hp2, List.append_nil]

theorem mem_oxChildInit_iff (p1 : List ℤ) (cx1 cx2 : ℕ) (g : ℤ) (hg : g ≠ -1)
    (h2L : cx2 ≤ p1.length) :
    g ∈ oxChildInit p1 cx1 cx2 ↔ g ∈ (p1.take cx2).drop cx1 := by
  constructor
  · intro h
    obtain ⟨i, hi, hf⟩ := List.mem_map.mp h
    have hiL : i < p1.length := List.mem_range.mp hi
    by_cases hseg : cx1 ≤ i ∧ i < cx2
    · rw [if_pos hseg] at hf
      apply List.mem_iff_getElem.mpr
      refine ⟨i - cx1, by
        simp only [List.length_drop, List.length_take]
        omega, ?_⟩
      rw [List.getElem_drop, List.getElem_take]
      rw [List.getD_eq_getElem _ _ hiL] at hf
      have hidx : cx1 + (i - cx1) = i := by omega
      simp only [hidx]
      exact hf
    · rw [if_neg hseg] at hf
      exact absurd hf.symm hg
  · intro h
    obtain ⟨k, hk, hval⟩ := List.mem_iff_getElem.mp h
    have hklen : k < cx2 - cx1 := by
      have h2 := hk
      simp only [List.length_drop, List.length_take] at h2
      omega
    apply List.mem_map.mpr
    refine ⟨cx1 + k, List.mem_range.mpr (by omega), ?_⟩
    rw [if_pos (by omega)]
    rw [List.getElem_drop, List.getElem_take] at hval
    rw [List.getD_eq_getElem _ _ (by omega)]
    exact hval

theorem filter_not_mem_decomp (A S C : List ℤ)
    (hA : ∀ a ∈ A, a ∉ S) (hC : ∀ c ∈ C, c ∉ S) :
    ((A ++ S) ++ C).filter (fun g => g ∉ S) = A ++ C := by
  rw [List.filter_append, List.filter_append]
  rw [List.filter_eq_self.mpr (fun a ha => by simpa using hA a ha),
      List.filter_eq_nil_iff.mpr (fun a ha h2 => by simp at h2; exact h2 ha),
      List.filter_eq_self.mpr (fun c hc => by simpa using hC c hc),
      List.append_nil]

theorem filter_not_seg (p1 : List ℤ) (cx1 cx2 : ℕ) (hnd : p1.Nodup)
    (h12 : cx1 ≤ cx2) (h2L : cx2 ≤ p1.length) :
    p1.filter (fun g => g ∉ (p1.take cx2).drop cx1)
      = p1.take cx1 ++ p1.drop cx2 := by
  have hdecomp : p1 = (p1.take cx1 ++ (p1.take cx2).drop cx1) ++ p1.drop cx2 := by
    rw [show p1.take cx1 = (p1.take cx2).take cx1 from by
      rw [List.take_take, min_eq_left h12]]
    rw [List.take_append_drop, List.take_append_drop]
  have hnd2 : ((p1.take cx1 ++ (p1.take cx2).drop cx1) ++ p1.drop cx2).Nodup := by
    rw [← hdecomp]
    exact hnd
  obtain ⟨hndL, hndC, hdisj1⟩ := List.nodup_append.mp hnd2
  obtain ⟨hndA, hndS, hdisj2⟩ := List.nodup_append.mp hndL
  have key := filter_not_mem_decomp (p1.take cx1) ((p1.take cx2).drop cx1)
    (p1.drop cx2) (fun a ha => hdisj2 ha)
    (fun c hc hS => hdisj1 (List.mem_append_right _ hS) hc)
  rw [← hdecomp] at key
  exact key

theorem create_ox_child_spec (p1 p2 : List ℤ) (cx1 cx2 : ℕ)
    (hnd1 : p1.Nodup) (hperm : p1.Perm p2) (hpos : ∀ g ∈ p1, (0:ℤ) ≤ g)
    (h12 : cx1 ≤ cx2) (h2L : cx2 ≤ p1.length) :
    ∃ c, create_ox_child p1 p2 cx1 cx2 = some c ∧
      c.length = p1.length ∧
      (∀ i, cx1 ≤ i → i < cx2 → c.getD i 0 = p1.getD i 0) ∧
      (freeSlots p1.length cx1 cx2).map (fun i => c.getD i 0)
        = p2.filter (fun g => g ∉ oxChildInit p1 cx1 cx2) := by
  have hpos2 : ∀ g ∈ p2, (0:ℤ) ≤ g := fun g hg => hpos g (hperm.mem_iff.mpr hg)
  have hclen : (oxChildInit p1 cx1 cx2).length = p1.length :=
    oxChildInit_length p1 cx1 cx2
  have hgne : ∀ g ∈ p2.filter (fun g => g ∉ oxChildInit p1 cx1 cx2), g ≠ -1 := by
    intro g hgm
    have hmem := List.mem_of_mem_filter hgm
    have := hpos2 g hmem
    omega
  have hfe : p2.filter (fun g => g ∉ oxChildInit p1 cx1 cx2)
      = p2.filter (fun g => g ∉ (p1.take cx2).drop cx1) := by
    apply List.filter_congr
    intro g hg
    have hg0 : (0:ℤ) ≤ g := hpos2 g hg
    have hiff : g ∈ oxChildInit p1 cx1 cx2 ↔ g ∈ (p1.take cx2).drop cx1 :=
      mem_oxChildInit_iff p1 cx1 cx2 g (by omega) h2L
    simp [hiff]
  have hlen1 : (p2.filter (fun g => g ∉ (p1.take cx2).drop cx1)).length
      = (p1.filter (fun g => g ∉ (p1.take cx2).drop cx1)).length :=
    ((hperm.filter _).length_eq).symm
  have hflt := filter_not_seg p1 cx1 cx2 hnd1 h12 h2L
  have hscan := scan_filter_init p1 cx1 cx2 hpos h12 h2L
  have hcount : (p2.filter (fun g => g ∉ oxChildInit p1 cx1 cx2)).length
      = ((scanOrder (oxChildInit p1 cx1 cx2).length cx2).filter
          (fun i => (oxChildInit p1 cx1 cx2).getD i 0 = -1)).length := by
    rw [hfe, hlen1, hflt, hclen, hscan]
    simp only [freeSlots, List.length_append, List.length_drop, List.length_take,
      List.length_range]
    omega
  obtain ⟨res, hres, hreslen, hpreserve, hmap⟩ :=
    oxFill_spec (p2.filter (fun g => g ∉ oxChildInit p1 cx1 cx2))
      (oxChildInit p1 cx1 cx2) cx2 (by rw [hclen]; exact h2L) hgne hcount
  refine ⟨res, ?_, by rw [hreslen, hclen], ?_, ?_⟩
  · unfold create_ox_child
    dsimp only
    exact hres
  · intro i h1i hi2
    have hiL : i < p1.length := by omega
    have hcd : (oxChildInit p1 cx1 cx2).getD i 0 = p1.getD i (-1) := by
      rw [oxChildInit_getD p1 cx1 cx2 i hiL, if_pos ⟨h1i, hi2⟩]
    have hne : (oxChildInit p1 cx1 cx2).getD i 0 ≠ -1 := by
      rw [hcd]
      exact p1_getD_ne p1 hpos i hiL
    rw [hpreserve i (by rw [hclen]; exact hiL) hne, hcd,
      List.getD_eq_getElem _ _ hiL, List.getD_eq_getElem _ _ hiL]
  · rw [hclen, hscan] at hmap
    exact hmap

/-- C7, counterexample: with parents `[0, 1]` and `[2, 3]` (both
duplicate-free of length 2, but over disjoint gene sets) and cut points
`(0, 1)`, parent 2 contributes two unused genes while the child has a
single free slot, so the fill loop of `_create_ox_child` cycles forever;
the embedding reports the divergence of both the child construction and
`ordered_crossover` as `none`. -/
theorem C7_crossover_divergence_cex :
    ordered_crossover [0, 1] [2, 3] 0 1 = none ∧
    create_ox_child [0, 1] [2, 3] 0 1 = none := by decide

/-- C7: for duplicate-free parent routes that are permutations of one
another, with non-negative genes, common length at least 2 and cut
points `cx1 <= cx2 <= length`, `ordered_crossover` terminates and
returns two children of full length in which positions `[cx1, cx2)`
carry the respective segment parent's genes, and the remaining
positions, scanned from `cx2` wrapping at the length, hold exactly the
other parent's genes not already present, in that parent's order. -/
theorem C7_ordered_crossover_amended (p1 p2 : List ℤ) (cx1 cx2 : ℕ)
    (hnd1 : p1.Nodup) (hperm : p1.Perm p2) (hpos : ∀ g ∈ p1, (0:ℤ) ≤ g)
    (h12 : cx1 ≤ cx2) (h2L : cx2 ≤ p1.length) (hL : 2 ≤ p1.length) :
    ∃ c1 c2, ordered_crossover p1 p2 cx1 cx2 = some (c1, c2) ∧
      c1.length = p1.length ∧ c2.length = p1.length ∧
      (∀ i, cx1 ≤ i → i < cx2 → c1.getD i 0 = p1.getD i 0) ∧
      (∀ i, cx1 ≤ i → i < cx2 → c2.getD i 0 = p2.getD i 0) ∧
      (freeSlots p1.length cx1 cx2).map (fun i => c1.getD i 0)
        = p2.filter (fun g => g ∉ oxChildInit p1 cx1 cx2) ∧
      (freeSlots p1.length cx1 cx2).map (fun i => c2.getD i 0)
        = p1.filter (fun g => g ∉ oxChildInit p2 cx1 cx2) := by
  have hlen : p2.length = p1.length := hperm.length_eq.symm
  have hnd2 : p2.Nodup := hperm.nodup_iff.mp hnd1
  have hpos2 : ∀ g ∈ p2, (0:ℤ) ≤ g := fun g hg => hpos g (hperm.mem_iff.mpr hg)
  obtain ⟨c1, hc1, hc1len, hc1seg, hc1fill⟩ :=
    create_ox_child_spec p1 p2 cx1 cx2 hnd1 hperm hpos h12 h2L
  obtain ⟨c2, hc2, hc2len, hc2seg, hc2fill⟩ :=
    create_ox_child_spec p2 p1 cx1 cx2 hnd2 hperm.symm hpos2 h12 (by omega)
  refine ⟨c1, c2, ?_, hc1len, by rw [hc2len, hlen], hc1seg, hc2seg, hc1fill, ?_⟩
  · unfold ordered_crossover
    rw [if_neg (by omega)]
    dsimp only
    have hmin : min p1.length p2.length = p1.length := by omega
    rw [hmin, List.take_length,
      show p2.take p1.length = p2 from by rw [← hlen, List.take_length],
      hc1, hc2]
  · rw [hlen] at hc2fill
    exact hc2fill

/-- C7, witness: the amended claim applied at parents `[0, 1, 2]` and
`[2, 0, 1]` with cut points `(1, 2)`. -/
theorem C7_ordered_crossover_witness :
    [(0:ℤ), 1, 2].Nodup ∧ List.Perm [(0:ℤ), 1, 2] [2, 0, 1] ∧
    (∀ g ∈ [(0:ℤ), 1, 2], 0 ≤ g) ∧
    (∃ c1 c2, ordered_crossover [0, 1, 2] [2, 0, 1] 1 2 = some (c1, c2) ∧
      c1.length = [(0:ℤ), 1, 2].length ∧ c2.length = [(0:ℤ), 1, 2].length ∧
      (∀ i, 1 ≤ i → i < 2 → c1.getD i 0 = [(0:ℤ), 1, 2].getD i 0) ∧
      (∀ i, 1 ≤ i → i < 2 → c2.getD i 0 = [(2:ℤ), 0, 1].getD i 0) ∧
      (freeSlots [(0:ℤ), 1, 2].length 1 2).map (fun i => c1.getD i 0)
        = [(2:ℤ), 0, 1].filter (fun g => g ∉ oxChildInit [0, 1, 2] 1 2) ∧
      (freeSlots [(0:ℤ), 1, 2].length 1 2).map (fun i => c2.getD i 0)
        = [(0:ℤ), 1, 2].filter (fun g => g ∉ oxChildInit [2, 0, 1] 1 2)) :=
  ⟨by decide, by decide, by decide,
    C7_ordered_crossover_amended [0, 1, 2] [2, 0, 1] 1 2 (by decide) (by decide)
      (by decide) (by decide) (by decide) (by decide)⟩

end TouristGen
